import Mathlib

/-!
# Workflow-AI-Assistant — verification of the collaborative state-sync engine

Shallow embedding of the collaborative workflow editor of the
Workflow-AI-Assistant repository:

* the graph data model and the six mutating operation kinds
  (`frontend/lib` types `WorkflowOp`, `WorkflowOpResult`);
* the server-side Conflict Resolver and Version Store (the backend source is
  not part of the frontend tree; those definitions are modelled from the
  specification's §4.1/§4.2 and are marked `Modelled from the spec:`);
* the client-side editor logic of `WorkflowVisualization.tsx`
  (pending-operation coalescing, flush, conflict rebase);
* the `ChatWebSocket` class of `frontend/lib/api/websocket.ts`
  (connect / disconnect / send / ping heartbeat / reconnect timer);
* the typing-indicator logic of `ChatWindow.tsx`.
-/

/-! ## Graph model (spec §3, `frontend` types) -/

/-- A 2-D node position, as in `{x, y}` of the workflow JSON. -/
structure Position where
  x : Int
  y : Int
deriving Repr, DecidableEq

/-- A workflow node `{id, label, kind, position}` (spec §3 Graph model). -/
structure GNode where
  id : String
  label : String
  kind : String
  position : Position
deriving Repr, DecidableEq

/-- A workflow graph: nodes plus directed edges `(fromId, toId)`. -/
structure Graph where
  nodes : List GNode
  edges : List (String × String)
deriving Repr, DecidableEq

/-- The empty graph. -/
def Graph.empty : Graph := ⟨[], []⟩

/-- The six mutating operation kinds of `WorkflowOp.op_type`
(`move_node, add_node, delete_node, update_node, add_edge, delete_edge`),
each carrying the minimal payload needed to apply itself. -/
inductive Operation where
  | moveNode (nodeId : String) (pos : Position)
  | addNode (node : GNode)
  | deleteNode (nodeId : String)
  | updateNode (nodeId : String) (label : String)
  | addEdge (fromId toId : String)
  | deleteEdge (fromId toId : String)
deriving Repr, DecidableEq

/-- Apply one operation to a graph. Deleting a node also removes its incident
edges, preserving the spec §3 invariant that every edge endpoint references an
existing node in any committed snapshot. -/
def applyOp (g : Graph) : Operation → Graph
  | .moveNode n p =>
      { g with nodes := g.nodes.map (fun nd => if nd.id = n then { nd with position := p } else nd) }
  | .addNode nd =>
      if g.nodes.any (fun m => m.id = nd.id) then g else { g with nodes := g.nodes ++ [nd] }
  | .deleteNode n =>
      { nodes := g.nodes.filter (fun nd => nd.id ≠ n),
        edges := g.edges.filter (fun e => e.1 ≠ n ∧ e.2 ≠ n) }
  | .updateNode n l =>
      { g with nodes := g.nodes.map (fun nd => if nd.id = n then { nd with label := l } else nd) }
  | .addEdge a b =>
      if g.edges.any (fun e => e.1 = a ∧ e.2 = b) then g else { g with edges := g.edges ++ [(a, b)] }
  | .deleteEdge a b =>
      { g with edges := g.edges.filter (fun e => ¬ (e.1 = a ∧ e.2 = b)) }

/-- Apply an ordered batch of operations left to right. -/
def applyOps (g : Graph) (ops : List Operation) : Graph := ops.foldl applyOp g

/-! ## Conflict table (spec §4.1) -/

/-- Pairwise conflict test between an incoming and a concurrent operation,
implementing the symmetric conflict table of spec §4.1:
move/update of node X conflicts with move/update/delete of X; add node X
conflicts with add node X (same id); add edge (A→B) conflicts with delete of
node A or B; same-edge deletes are idempotent (no conflict); operations on
disjoint entities never conflict. -/
def conflictsWith : Operation → Operation → Bool
  | .moveNode a _, .moveNode b _ => a = b
  | .moveNode a _, .updateNode b _ => a = b
  | .moveNode a _, .deleteNode b => a = b
  | .updateNode a _, .moveNode b _ => a = b
  | .updateNode a _, .updateNode b _ => a = b
  | .updateNode a _, .deleteNode b => a = b
  | .deleteNode a, .moveNode b _ => a = b
  | .deleteNode a, .updateNode b _ => a = b
  | .addNode n1, .addNode n2 => n1.id = n2.id
  | .addEdge a b, .deleteNode c => a = c ∨ b = c
  | .deleteNode c, .addEdge a b => a = c ∨ b = c
  | _, _ => false

/-- The entity an operation targets, for human-readable conflict messages. -/
def targetDesc : Operation → String
  | .moveNode n _ => "node " ++ n
  | .addNode nd => "node " ++ nd.id
  | .deleteNode n => "node " ++ n
  | .updateNode n _ => "node " ++ n
  | .addEdge a b => "edge " ++ a ++ "->" ++ b
  | .deleteEdge a b => "edge " ++ a ++ "->" ++ b

/-- A human-readable message for one offending node/edge. -/
def conflictMessage (op : Operation) : String :=
  "Conflict on " ++ targetDesc op

/-- One message per (incoming op, concurrent op) pair that conflicts. -/
def conflictMessages (ops concurrent : List Operation) : List String :=
  (ops.map (fun op =>
    concurrent.filterMap (fun c =>
      if conflictsWith op c then some (conflictMessage op) else none))).flatten

/-- True when some incoming operation conflicts with some concurrent one. -/
def hasConflict (ops concurrent : List Operation) : Bool :=
  ops.any (fun op => concurrent.any (fun c => conflictsWith op c))

/-! ## Server state: operation log, snapshots, version pointer (spec §3) -/

/-- `OperationLogEntry {sessionId, version, operation, authorId}` — append-only,
ordered by increasing version (spec §3). The sessionId is implicit: one
`SessionState` models one session. -/
structure LogEntry where
  version : Nat
  operation : Operation
  authorId : Nat
deriving Repr, DecidableEq

/-- `Snapshot {version, graph, description, authorId}` — immutable full
materialization of the graph at a version (spec §3). -/
structure Snapshot where
  version : Nat
  graph : Graph
  description : String
  authorId : Nat
deriving Repr, DecidableEq

/-- Per-session server state: the operation log, the surviving snapshots, and
the `VersionState {maxVersion, currentVersion}` of spec §3. -/
structure SessionState where
  log : List LogEntry
  snapshots : List Snapshot
  maxVersion : Nat
  current : Nat
deriving Repr, DecidableEq

/-- Well-formedness: every surviving snapshot's version is at most
`maxVersion`, and the pointer satisfies `current ≤ maxVersion`. -/
def SessionState.wf (st : SessionState) : Prop :=
  (∀ s ∈ st.snapshots, s.version ≤ st.maxVersion) ∧ st.current ≤ st.maxVersion

instance (st : SessionState) : Decidable st.wf := by
  unfold SessionState.wf; infer_instance

/-- The graph of the latest snapshot (version = `maxVersion`), or the empty
graph when no snapshot exists yet. -/
def latestGraph (st : SessionState) : Graph :=
  ((st.snapshots.find? (fun s => s.version = st.maxVersion)).map (·.graph)).getD Graph.empty

/-- The graph at a surviving version, without moving the pointer
(spec §4.2 `peek`). -/
def peek (st : SessionState) (v : Nat) : Option Graph :=
  (st.snapshots.find? (fun s => s.version = v)).map (·.graph)

/-! ## Version Store (spec §4.2) -/

/-- Modelled from the spec: the backend Version Store (`backend/main.py`, not
part of the frontend source tree). `commit(newGraph, description, authorId)`:
if `current < maxVersion`, discard snapshots with version `> current`
(truncate the redone future), then append a new snapshot at `current+1` and
set `maxVersion = current = current+1`. When the pointer is at the tip the
filter keeps every snapshot, so nothing is discarded. -/
def commit (g : Graph) (desc : String) (author : Nat) (st : SessionState) : SessionState :=
  let kept := st.snapshots.filter (fun s => s.version ≤ st.current)
  let v := st.current + 1
  { st with snapshots := kept ++ [⟨v, g, desc, author⟩], maxVersion := v, current := v }

/-- Version Store errors (spec §7 taxonomy, the part the store raises). -/
inductive VSError where
  | outOfRange
deriving Repr, DecidableEq

/-- Modelled from the spec: `moveTo(targetVersion)` (undo/redo/revert):
requires `1 ≤ targetVersion ≤ maxVersion`; sets `current = targetVersion`;
creates no snapshot and leaves `maxVersion` unchanged; fails with
`OutOfRange` otherwise (spec §4.2). -/
def moveTo (target : Nat) (st : SessionState) : Except VSError SessionState :=
  if 1 ≤ target ∧ target ≤ st.maxVersion then
    .ok { st with current := target }
  else
    .error .outOfRange

/-! ## Conflict Resolver (spec §4.1, wire type `WorkflowOpResult`) -/

/-- The `status` field of `WorkflowOpResult`: `applied | merged | conflict`. -/
inductive OpStatus where
  | applied
  | merged
  | conflict
deriving Repr, DecidableEq

/-- The wire result of `applyOperations` — `WorkflowOpResult` of the shared
frontend types `{status, version, data, conflicts}`; the serialized `data`
string is modelled as the graph value it encodes. -/
structure OpResult where
  status : OpStatus
  version : Nat
  graph : Graph
  conflicts : List String
deriving Repr, DecidableEq

/-- The concurrent operations for a declared base version: all logged
operations with `version > baseVersion` (spec §4.1). -/
def concurrentOps (st : SessionState) (base : Nat) : List Operation :=
  (st.log.filter (fun e => base < e.version)).map (·.operation)

/-- Modelled from the spec: the backend Conflict Resolver
(`backend/main.py`, not part of the frontend source tree), spec §4.1
`resolve(sessionId, baseVersion, operations[])`. An empty batch is a no-op
success (spec §4.1 failure conditions). Otherwise, if any incoming operation
conflicts with a concurrent logged one, return `conflict` with one message
per offending pair and the current graph, changing no state; if none
conflicts, apply the batch on top of the latest snapshot, append one log
entry per operation and one snapshot at `maxVersion+1`, and return `applied`
when `baseVersion = maxVersion`, else `merged`. -/
def resolve (st : SessionState) (base : Nat) (ops : List Operation) (author : Nat) :
    SessionState × OpResult :=
  if ops = [] then
    (st, ⟨.applied, st.maxVersion, latestGraph st, []⟩)
  else
    let conc := concurrentOps st base
    if hasConflict ops conc then
      (st, ⟨.conflict, st.maxVersion, latestGraph st, conflictMessages ops conc⟩)
    else
      let g := applyOps (latestGraph st) ops
      let v := st.maxVersion + 1
      let st' : SessionState :=
        { log := st.log ++ ops.map (fun op => ⟨v, op, author⟩),
          snapshots := st.snapshots ++ [⟨v, g, "operation batch", author⟩],
          maxVersion := v,
          current := v }
      (st', ⟨if base = st.maxVersion then .applied else .merged, v, g, []⟩)

example : (resolve ⟨[], [], 0, 0⟩ 0 [.addNode ⟨"a", "A", "start", ⟨0, 0⟩⟩] 1).2.status
    = .applied := by decide

/-! ## Client editor state (`WorkflowVisualization.tsx`) -/

/-- Client-side editor state of `WorkflowVisualization`:
`workflowVersionRef.current` (the base version for the next batch), the local
graph propagated through `onPositionChange`, and the transient conflict
banner (`conflictMessage` state). -/
structure EditorState where
  workflowVersion : Nat
  localGraph : Graph
  conflictBanner : Option String
deriving Repr, DecidableEq

/-- The result handling of `flushOperations` (WorkflowVisualization.tsx,
lines 431–456): on `conflict`, show the first conflict message (or a
fallback), rebase the local graph onto the returned `data`, and adopt the
returned version; on `merged` and `applied`, also propagate `data` through
`onPositionChange` and adopt the returned version. -/
def applyResult (es : EditorState) (r : OpResult) : EditorState :=
  match r.status with
  | .conflict =>
      { workflowVersion := r.version,
        localGraph := r.graph,
        conflictBanner :=
          some (r.conflicts.headD
            "Your edit conflicted with another user's change. Refreshing...") }
  | _ =>
      { workflowVersion := r.version,
        localGraph := r.graph,
        conflictBanner := es.conflictBanner }

/-! ## Pending move-operation coalescing (`WorkflowVisualization.tsx`) -/

/-- One entry of React Flow's `NodeChange` array, restricted to the fields
`handleNodesChange` inspects: `change.type === 'position'`,
`change.dragging`, `change.position`, `change.id`. -/
structure NodeChange where
  id : String
  isPositionChange : Bool
  dragging : Option Bool
  position : Option Position
deriving Repr, DecidableEq

/-- JS `Map.set` on an insertion-ordered association list (keys are unique):
the first entry with the key is overwritten in place, a new key is appended
at the end. -/
def mapSet : List (String × Position) → String → Position → List (String × Position)
  | [], k, v => [(k, v)]
  | kv :: rest, k, v => if kv.1 = k then (k, v) :: rest else kv :: mapSet rest k v

/-- One iteration of the recording loop of `handleNodesChange`
(WorkflowVisualization.tsx, lines 490–494): for a change with
`type === 'position'`, `dragging === false` and a position present,
`pendingOpsRef.current.set(change.id, change.position)`. -/
def stepPending (acc : List (String × Position)) (c : NodeChange) :
    List (String × Position) :=
  match c.position with
  | some p => if c.isPositionChange ∧ c.dragging = some false then mapSet acc c.id p else acc
  | none => acc

/-- The full recording loop of `handleNodesChange` over a `NodeChange`
batch. -/
def recordPending (changes : List NodeChange) (m : List (String × Position)) :
    List (String × Position) :=
  changes.foldl stepPending m

/-- The batch-building half of `flushOperations` (WorkflowVisualization.tsx,
lines 414–426): with no chat or an empty pending map nothing happens;
otherwise one `move_node` operation per pending map entry is built, the
pending map is cleared before the request is issued, and the later request
outcome (`requestFails`) never repopulates it — the `catch` branch only falls
back to a legacy full-state save. Returns the operation batch sent to
`applyOperations` and the pending map left behind. -/
def flushOperations (chatId : Option Nat) (m : List (String × Position))
    (requestFails : Bool) : List Operation × List (String × Position) :=
  match chatId with
  | none => ([], m)
  | some _ =>
      if m = [] then ([], m)
      else
        let _ := requestFails
        (m.map (fun kv => Operation.moveNode kv.1 kv.2), [])

/-- The node id a `move_node` operation targets (for per-node uniqueness). -/
def moveTarget : Operation → Option String
  | .moveNode n _ => some n
  | _ => none

/-- The position a single change records for node `n`, when it is a
drag-stop for `n` (`type === 'position'`, `dragging === false`, position
present). -/
def dragStopPos (c : NodeChange) (n : String) : Option Position :=
  match c.position with
  | some p => if c.id = n ∧ c.isPositionChange ∧ c.dragging = some false then some p else none
  | none => none

/-- Last relevant position recorded for node `n` by a change list: the value
of the final drag-stop change for `n`, later changes taking priority. -/
def lastPos (changes : List NodeChange) (n : String) : Option Position :=
  match changes with
  | [] => none
  | c :: cs =>
      match lastPos cs n with
      | some p => some p
      | none => dragStopPos c n

/-- Association-list lookup by key (the value `Map.get` would return). -/
def lookupPos : List (String × Position) → String → Option Position
  | [], _ => none
  | kv :: rest, n => if kv.1 = n then some kv.2 else lookupPos rest n

/-- Left-biased overlay of two optional positions. -/
def overlay (a b : Option Position) : Option Position :=
  match a with
  | some p => some p
  | none => b

/-! ## `ChatWebSocket` (websocket.ts) -/

/-- Browser WebSocket ready states. -/
inductive ReadyState where
  | connecting
  | opened
  | closing
  | closed
deriving Repr, DecidableEq

/-- A frame the client writes to the socket: the `{"type":"ping"}` heartbeat
or a `{"type":"typing","is_typing":b}` signal. -/
inductive WireMsg where
  | ping
  | typing (isTyping : Bool)
deriving Repr, DecidableEq

/-- The underlying socket: its ready state plus the `chatId` argument of the
`connect` call that created it, captured by the `onclose` closure. -/
structure Socket where
  readyState : ReadyState
  boundChatId : Nat
deriving Repr, DecidableEq

/-- The mutable fields of the `ChatWebSocket` class: `ws` (the current
socket), `chatId`, the pending reconnect timer with its captured chat id,
whether the 30-second ping interval is live (`pingTimer !== null`), plus a
ghost log of the frames actually transmitted on an OPEN socket. Event
handlers (`onopen`/`onclose`) are modelled for the current socket. -/
structure ChatWebSocket where
  ws : Option Socket
  chatId : Option Nat
  reconnectPending : Option Nat
  pingActive : Bool
  sent : List WireMsg
deriving Repr, DecidableEq

/-- The initial `chatWS` singleton: no socket, no chat, no timers. -/
def initialWS : ChatWebSocket :=
  { ws := none, chatId := none, reconnectPending := none, pingActive := false, sent := [] }

/-- `send(data)` (websocket.ts lines 62–66): transmit only when
`this.ws?.readyState === WebSocket.OPEN`; otherwise do nothing. -/
def ChatWebSocket.send (s : ChatWebSocket) (m : WireMsg) : ChatWebSocket :=
  match s.ws with
  | some sock => if sock.readyState = .opened then { s with sent := s.sent ++ [m] } else s
  | none => s

/-- `sendTyping(isTyping)` (websocket.ts lines 68–70). -/
def ChatWebSocket.sendTyping (s : ChatWebSocket) (b : Bool) : ChatWebSocket :=
  s.send (.typing b)

/-- `stopPing()` (websocket.ts lines 90–95): clear the ping interval. -/
def ChatWebSocket.stopPing (s : ChatWebSocket) : ChatWebSocket :=
  { s with pingActive := false }

/-- The ping interval period of `startPing` (websocket.ts line 87). -/
def pingIntervalMs : Nat := 30000

/-- The reconnect delay of `scheduleReconnect` (websocket.ts line 102). -/
def reconnectDelayMs : Nat := 3000

/-- `disconnect()` (websocket.ts lines 49–60): stop the ping interval, clear
the reconnect timer, close and drop the socket, null the chat id. -/
def ChatWebSocket.disconnect (s : ChatWebSocket) : ChatWebSocket :=
  { s with pingActive := false, reconnectPending := none, ws := none, chatId := none }

/-- `connect(chatId)` (websocket.ts lines 11–19): first `disconnect()`, then
set `this.chatId`, and when a token is available create a new socket in the
CONNECTING state whose handlers capture `chatId`. -/
def ChatWebSocket.connect (s : ChatWebSocket) (id : Nat) (hasToken : Bool) : ChatWebSocket :=
  let s1 := s.disconnect
  let s2 := { s1 with chatId := some id }
  if hasToken then { s2 with ws := some ⟨.connecting, id⟩ } else s2

/-- The `onopen` handler (websocket.ts lines 21–24): the socket becomes OPEN
and `startPing()` starts the 30-second heartbeat interval. -/
def ChatWebSocket.onOpen (s : ChatWebSocket) : ChatWebSocket :=
  match s.ws with
  | some sock => { s with ws := some { sock with readyState := .opened }, pingActive := true }
  | none => s

/-- The `onclose` handler (websocket.ts lines 36–42): the socket becomes
CLOSED, `stopPing()` clears the heartbeat interval, and unless the close code
is 4001, 4003 or 4004 a reconnect timer is scheduled carrying the closure's
`chatId` argument. -/
def ChatWebSocket.onClose (s : ChatWebSocket) (code : Nat) : ChatWebSocket :=
  match s.ws with
  | some sock =>
      let s1 := { s with ws := some { sock with readyState := .closed }, pingActive := false }
      if code ≠ 4001 ∧ code ≠ 4003 ∧ code ≠ 4004 then
        { s1 with reconnectPending := some sock.boundChatId }
      else s1
  | none => s

/-- The reconnect timer callback (websocket.ts lines 97–103), firing
`reconnectDelayMs` after an abnormal close: it calls `connect(chatId)` only
when `this.chatId === null` at that moment. -/
def ChatWebSocket.reconnectFire (s : ChatWebSocket) (hasToken : Bool) : ChatWebSocket :=
  match s.reconnectPending with
  | some id =>
      let s1 := { s with reconnectPending := none }
      if s1.chatId = none then s1.connect id hasToken else s1
  | none => s

/-- One tick of the `startPing` interval (websocket.ts line 87): while the
interval is live, `send({type:'ping'})`; `send` itself guards on OPEN. -/
def ChatWebSocket.pingTick (s : ChatWebSocket) : ChatWebSocket :=
  if s.pingActive then s.send .ping else s

/-! ## Typing indicator (`ChatWindow.tsx`) -/

/-- The client-side expiry of a received `is_typing=true` event
(ChatWindow.tsx line 76). -/
def typingExpiryMs : Nat := 3000

/-- The sender-side idle delay after which `is_typing=false` is emitted
(ChatWindow.tsx line 133). -/
def typingIdleMs : Nat := 2000

/-- The `ChatWindow` state the typing logic touches: the `typingUsers` list,
the scheduled expiry callbacks `(username, fireAt)` created by the typing
listener, and the sender's `typingTimeoutRef` (absolute fire time). -/
structure ChatWindowState where
  typingUsers : List String
  removalTimers : List (String × Nat)
  typingTimeout : Option Nat
deriving Repr, DecidableEq

/-- The `typing` listener (ChatWindow.tsx lines 68–80): on `is_typing=true`,
append the username if absent and schedule an unconditional removal
`typingExpiryMs` later; on `is_typing=false`, filter the username out. -/
def onTypingEvent (now : Nat) (username : String) (isTyping : Bool)
    (st : ChatWindowState) : ChatWindowState :=
  if isTyping then
    { st with
      typingUsers :=
        if username ∈ st.typingUsers then st.typingUsers else st.typingUsers ++ [username],
      removalTimers := st.removalTimers ++ [(username, now + typingExpiryMs)] }
  else
    { st with typingUsers := st.typingUsers.filter (fun u => u ≠ username) }

/-- A scheduled expiry firing (the `setTimeout` body of ChatWindow.tsx lines
74–76): filter the username out of `typingUsers`, whatever the current state,
and consume the timer entry. -/
def fireRemoval (entry : String × Nat) (st : ChatWindowState) : ChatWindowState :=
  { st with
    typingUsers := st.typingUsers.filter (fun u => u ≠ entry.1),
    removalTimers := st.removalTimers.erase entry }

/-- `handleInputChange` (ChatWindow.tsx lines 127–134): emit
`is_typing=true`, clear the previous idle timer and schedule
`sendTyping(false)` `typingIdleMs` from now. -/
def handleInputChange (now : Nat) (st : ChatWindowState) (ws : ChatWebSocket) :
    ChatWindowState × ChatWebSocket :=
  ({ st with typingTimeout := some (now + typingIdleMs) }, ws.sendTyping true)

/-- The idle-timer body (ChatWindow.tsx lines 131–133): emit
`is_typing=false`; the timer is consumed. -/
def fireTypingTimeout (st : ChatWindowState) (ws : ChatWebSocket) :
    ChatWindowState × ChatWebSocket :=
  ({ st with typingTimeout := none }, ws.sendTyping false)

/-! ## Concrete example data (used by witnesses and counterexamples) -/

/-- A one-node example graph. -/
def exGraph : Graph := ⟨[⟨"a", "A", "task", ⟨0, 0⟩⟩], []⟩

/-- A two-node example graph. -/
def exGraph2 : Graph := ⟨[⟨"a", "A", "task", ⟨0, 0⟩⟩, ⟨"b", "B", "task", ⟨1, 1⟩⟩], []⟩

/-- A session with three snapshots whose pointer was moved back to version 1
(two undos), as after the spec §8 scenario. -/
def exSession : SessionState :=
  { log := [⟨1, .addNode ⟨"a", "A", "task", ⟨0, 0⟩⟩, 1⟩,
            ⟨2, .addNode ⟨"b", "B", "task", ⟨1, 1⟩⟩, 1⟩,
            ⟨3, .moveNode "a" ⟨5, 5⟩, 2⟩],
    snapshots := [⟨1, exGraph, "v1", 1⟩, ⟨2, exGraph2, "v2", 1⟩,
                  ⟨3, exGraph2, "v3", 2⟩],
    maxVersion := 3,
    current := 1 }

/-- A session at its tip: two snapshots, pointer at version 2. -/
def exTipSession : SessionState :=
  { log := [⟨1, .addNode ⟨"a", "A", "task", ⟨0, 0⟩⟩, 1⟩,
            ⟨2, .moveNode "a" ⟨5, 5⟩, 2⟩],
    snapshots := [⟨1, exGraph, "v1", 1⟩, ⟨2, exGraph, "moved a", 2⟩],
    maxVersion := 2,
    current := 2 }

/-! ## Helper lemmas -/

theorem conflictMessages_ne_nil {ops conc : List Operation}
    (h : hasConflict ops conc = true) : conflictMessages ops conc ≠ [] := by
  unfold hasConflict at h
  rw [List.any_eq_true] at h
  obtain ⟨op, hop, hany⟩ := h
  rw [List.any_eq_true] at hany
  obtain ⟨c, hc, hcw⟩ := hany
  unfold conflictMessages
  intro hnil
  rw [List.flatten_eq_nil_iff] at hnil
  have hmem : conflictMessage op ∈
      conc.filterMap (fun c =>
        if conflictsWith op c then some (conflictMessage op) else none) := by
    refine List.mem_filterMap.mpr ⟨c, hc, ?_⟩
    simp [hcw]
  have := hnil _ (List.mem_map_of_mem _ hop)
  rw [this] at hmem
  exact absurd hmem (List.not_mem_nil _)

theorem hasConflict_ne_nil {ops conc : List Operation}
    (h : hasConflict ops conc = true) : ops ≠ [] := by
  rintro rfl
  simp [hasConflict] at h

/-! ## Claim theorems -/

/-- C1: for every session whose version pointer is not at the tip, committing
a new edit first discards every snapshot with version greater than `current`,
then appends a new snapshot at `current+1` and sets both `maxVersion` and
`current` to `current+1`; committing with the pointer at the tip discards
nothing (spec §4.2 commit, Version Store modelled from the spec). -/
theorem claim_C1_commit_truncation (st : SessionState) (g : Graph) (d : String) (a : Nat)
    (hwf : st.wf) :
    (commit g d a st).snapshots
        = st.snapshots.filter (fun s => s.version ≤ st.current)
          ++ [⟨st.current + 1, g, d, a⟩] ∧
    (commit g d a st).maxVersion = st.current + 1 ∧
    (commit g d a st).current = st.current + 1 ∧
    (st.current = st.maxVersion →
      (commit g d a st).snapshots = st.snapshots ++ [⟨st.current + 1, g, d, a⟩]) := by
  refine ⟨rfl, rfl, rfl, fun htip => ?_⟩
  unfold commit
  simp only
  congr 1
  apply List.filter_eq_self.mpr
  intro s hs
  have hv := hwf.1 s hs
  simp only [decide_eq_true_eq]
  omega

/-- C1 witness: a concrete commit with the pointer two versions behind the
tip truncates versions 2 and 3 and commits at version 2. -/
theorem claim_C1_commit_truncation_witness :
    exSession.wf ∧
    (commit exGraph2 "new" 2 exSession).snapshots
        = exSession.snapshots.filter (fun s => s.version ≤ exSession.current)
          ++ [⟨exSession.current + 1, exGraph2, "new", 2⟩] ∧
    (commit exGraph2 "new" 2 exSession).maxVersion = exSession.current + 1 := by
  have h := claim_C1_commit_truncation exSession exGraph2 "new" 2 (by decide)
  exact ⟨by decide, h.1, h.2.1⟩

/-- C3: for a session whose pointer can be moved back one surviving version,
undo (`moveTo prev`) followed by redo (`moveTo` back to the original pointer)
returns the session to exactly its prior state — the same graph content —
and neither step creates a snapshot or changes `maxVersion`; in general a
successful `moveTo` only moves the pointer, within `[1, maxVersion]`
(spec §4.2 moveTo, Version Store modelled from the spec; client handlers
`handleUndo`/`handleRedo`/`handleRevert` of VersionTimeline.tsx all call the
same revert endpoint). -/
theorem claim_C3_undo_redo (st : SessionState) (prev : Nat)
    (hprev1 : 1 ≤ prev) (hprev2 : prev ≤ st.maxVersion)
    (hcur1 : 1 ≤ st.current) (hcur2 : st.current ≤ st.maxVersion) :
    moveTo prev st = .ok { st with current := prev } ∧
    moveTo st.current { st with current := prev } = .ok st ∧
    ({ st with current := prev }).snapshots = st.snapshots ∧
    ({ st with current := prev }).maxVersion = st.maxVersion ∧
    peek { st with current := prev } st.current = peek st st.current ∧
    (∀ t st', moveTo t st = .ok st' →
      st' = { st with current := t } ∧ 1 ≤ t ∧ t ≤ st.maxVersion) := by
  refine ⟨?_, ?_, rfl, rfl, rfl, ?_⟩
  · unfold moveTo
    rw [if_pos ⟨hprev1, hprev2⟩]
  · unfold moveTo
    rw [if_pos ⟨hcur1, hcur2⟩]
  · intro t st' h
    unfold moveTo at h
    by_cases hc : 1 ≤ t ∧ t ≤ st.maxVersion
    · rw [if_pos hc] at h
      exact ⟨(Except.ok.injEq _ _).mp h.symm |>.symm ▸ rfl, hc.1, hc.2⟩
    · rw [if_neg hc] at h
      exact absurd h (by simp)

/-- C3 witness: on the concrete tip session, undo from version 2 to 1 and
redo back to 2 restores the exact state, with snapshots and `maxVersion`
untouched. -/
theorem claim_C3_undo_redo_witness :
    moveTo 1 exTipSession = .ok { exTipSession with current := 1 } ∧
    moveTo 2 { exTipSession with current := 1 } = .ok exTipSession ∧
    ({ exTipSession with current := 1 }).maxVersion = exTipSession.maxVersion := by
  have h := claim_C3_undo_redo exTipSession 1 (by decide) (by decide) (by decide) (by decide)
  exact ⟨h.1, h.2.1, h.2.2.2.1⟩

/-- C5 counterexample: `maxVersion` does decrease across truncation. On the
concrete session at `maxVersion = 3` with the pointer moved back to 1,
committing a new edit truncates versions 2 and 3 and resets `maxVersion` to
2, strictly below its previous value — refuting "maxVersion never decreases,
even across truncation". -/
theorem claim_C5_counterexample :
    (commit exGraph2 "new" 2 exSession).maxVersion < exSession.maxVersion := by
  decide

/-- C5 amended: `maxVersion` never decreases under `moveTo` or `resolve`,
and a commit with the pointer at the tip strictly increases it; only a
truncating commit (pointer behind the tip) can lower it, resetting it to
`current + 1` (spec §3 VersionState and §8, Version Store and Conflict
Resolver modelled from the spec). -/
theorem claim_C5_maxVersion_monotone (st st' : SessionState) (t : Nat)
    (g : Graph) (d : String) (a b : Nat) (ops : List Operation)
    (hmv : moveTo t st = .ok st') :
    st'.maxVersion = st.maxVersion ∧
    st.maxVersion ≤ (resolve st b ops a).1.maxVersion ∧
    (commit g d a st).maxVersion = st.current + 1 ∧
    (st.current = st.maxVersion → st.maxVersion < (commit g d a st).maxVersion) := by
  refine ⟨?_, ?_, rfl, fun htip => ?_⟩
  · unfold moveTo at hmv
    by_cases hc : 1 ≤ t ∧ t ≤ st.maxVersion
    · rw [if_pos hc] at hmv
      cases hmv
      rfl
    · rw [if_neg hc] at hmv
      exact absurd hmv (by simp)
  · unfold resolve
    by_cases hempty : ops = []
    · simp [hempty]
    · rw [if_neg hempty]
      by_cases hconf : hasConflict ops (concurrentOps st b) = true
      · simp [hconf]
      · simp only [Bool.not_eq_true] at hconf
        simp [hconf]
  · show st.maxVersion < st.current + 1
    omega

/-- C5 witness: on the concrete tip session, `moveTo 1` preserves
`maxVersion`, a resolve cannot lower it, and a commit at the tip raises it
from 2 to 3. -/
theorem claim_C5_maxVersion_monotone_witness :
    ({ exTipSession with current := 1 }).maxVersion = exTipSession.maxVersion ∧
    exTipSession.maxVersion ≤ (resolve exTipSession 2 [] 1).1.maxVersion ∧
    exTipSession.maxVersion < (commit exGraph "tip" 1 exTipSession).maxVersion := by
  have h := claim_C5_maxVersion_monotone exTipSession { exTipSession with current := 1 } 1
    exGraph "tip" 1 2 [] rfl
  exact ⟨h.1, h.2.1, h.2.2.2 (by decide)⟩

/-- C2: whenever some incoming operation conflicts with a concurrent logged
operation (version > baseVersion), the resolver returns status `conflict`
with at least one human-readable message and the current server graph, and
changes no server state (no log entry, no snapshot); the client's
`flushOperations` handler then rebases, replacing its local graph with the
returned graph and adopting the returned version as its new base version
(Conflict Resolver modelled from the spec §4.1;
client: WorkflowVisualization.tsx lines 431–441). -/
theorem claim_C2_conflict_rebase (st : SessionState) (base : Nat)
    (ops : List Operation) (author : Nat) (es : EditorState)
    (hconf : hasConflict ops (concurrentOps st base) = true) :
    (resolve st base ops author).2.status = .conflict ∧
    (resolve st base ops author).2.conflicts ≠ [] ∧
    (resolve st base ops author).2.graph = latestGraph st ∧
    (resolve st base ops author).1 = st ∧
    (applyResult es (resolve st base ops author).2).localGraph
        = (resolve st base ops author).2.graph ∧
    (applyResult es (resolve st base ops author).2).workflowVersion
        = (resolve st base ops author).2.version := by
  have hne : ops ≠ [] := hasConflict_ne_nil hconf
  unfold resolve
  rw [if_neg hne, if_pos hconf]
  exact ⟨rfl, conflictMessages_ne_nil hconf, rfl, rfl, rfl, rfl⟩

/-- C2 witness: a concrete batch moving node "a" against a log that already
moved "a" at version 3 yields a conflict, an explanatory message, no state
change, and a client rebase onto the returned graph and version. -/
theorem claim_C2_conflict_rebase_witness :
    hasConflict [.moveNode "a" ⟨9, 9⟩] (concurrentOps exSession 2) = true ∧
    (resolve exSession 2 [.moveNode "a" ⟨9, 9⟩] 7).2.status = .conflict ∧
    (resolve exSession 2 [.moveNode "a" ⟨9, 9⟩] 7).1 = exSession ∧
    (applyResult ⟨2, Graph.empty, none⟩ (resolve exSession 2 [.moveNode "a" ⟨9, 9⟩] 7).2).localGraph
        = (resolve exSession 2 [.moveNode "a" ⟨9, 9⟩] 7).2.graph := by
  have h := claim_C2_conflict_rebase exSession 2 [.moveNode "a" ⟨9, 9⟩] 7
    ⟨2, Graph.empty, none⟩ (by decide)
  exact ⟨by decide, h.1, h.2.2.2.1, h.2.2.2.2.1⟩

/-- C4 counterexample: the claim quantifies over every conflict-free batch,
but the spec's own failure conditions (§4.1) make the empty batch a no-op
success: on a session at `maxVersion = 3` with stale base 2, resolving an
empty (trivially conflict-free) batch appends no snapshot and returns
`applied` rather than `merged`, refuting both the "new snapshot at
maxVersion+1" part and the "applied exactly when baseVersion = maxVersion"
part as stated. -/
theorem claim_C4_counterexample :
    hasConflict [] (concurrentOps exSession 2) = false ∧
    (2 : Nat) ≠ exSession.maxVersion ∧
    (resolve exSession 2 [] 7).1.snapshots.length = exSession.snapshots.length ∧
    (resolve exSession 2 [] 7).2.status = .applied := by
  decide

/-- C4 amended: for every nonempty conflict-free operation batch, the
operations are applied on top of the latest snapshot (not the client's
declared base), a new snapshot is produced at `maxVersion+1`, and the
returned status is `applied` exactly when `baseVersion = maxVersion`, and
`merged` otherwise; the result graph is the incoming batch applied to the
latest snapshot, which already contains all concurrent changes
(Conflict Resolver modelled from the spec §4.1; wire shape
`WorkflowOpResult` and `workflowApi.applyOperations`). -/
theorem claim_C4_apply_or_merge (st : SessionState) (base : Nat)
    (ops : List Operation) (author : Nat)
    (hne : ops ≠ [])
    (hnoc : hasConflict ops (concurrentOps st base) = false) :
    (resolve st base ops author).1.snapshots
        = st.snapshots
          ++ [⟨st.maxVersion + 1, applyOps (latestGraph st) ops, "operation batch", author⟩] ∧
    (resolve st base ops author).1.maxVersion = st.maxVersion + 1 ∧
    (resolve st base ops author).2.graph = applyOps (latestGraph st) ops ∧
    (resolve st base ops author).2.version = st.maxVersion + 1 ∧
    ((resolve st base ops author).2.status = .applied ↔ base = st.maxVersion) ∧
    ((resolve st base ops author).2.status = .merged ↔ base ≠ st.maxVersion) := by
  unfold resolve
  rw [if_neg hne, if_neg (by simp [hnoc])]
  refine ⟨rfl, rfl, rfl, rfl, ?_, ?_⟩
  · by_cases hb : base = st.maxVersion
    · simp [hb]
    · simp [hb]
  · by_cases hb : base = st.maxVersion
    · simp [hb]
    · simp [hb]

/-- C4 witness: the spec §8 scenario shape — a stale base 1 against the tip
session at `maxVersion = 2` with a concurrent move of node "a", submitting a
batch that only adds node "c": the batch is merged into a snapshot at
version 3 built on the latest graph. -/
theorem claim_C4_apply_or_merge_witness :
    hasConflict [.addNode ⟨"c", "C", "task", ⟨2, 2⟩⟩] (concurrentOps exTipSession 1) = false ∧
    (resolve exTipSession 1 [.addNode ⟨"c", "C", "task", ⟨2, 2⟩⟩] 7).2.status = .merged ∧
    (resolve exTipSession 1 [.addNode ⟨"c", "C", "task", ⟨2, 2⟩⟩] 7).2.version
        = exTipSession.maxVersion + 1 ∧
    (resolve exTipSession 1 [.addNode ⟨"c", "C", "task", ⟨2, 2⟩⟩] 7).2.graph
        = applyOps (latestGraph exTipSession) [.addNode ⟨"c", "C", "task", ⟨2, 2⟩⟩] := by
  have h := claim_C4_apply_or_merge exTipSession 1 [.addNode ⟨"c", "C", "task", ⟨2, 2⟩⟩] 7
    (by decide) (by decide)
  exact ⟨by decide, h.2.2.2.2.2.mpr (by decide), h.2.2.2.1, h.2.2.1⟩


/-- C6: the heartbeat interval of `ChatWebSocket` (websocket.ts) fires every
30000 ms; `onopen` starts it, and both the `onclose` handler and
`disconnect()` stop it; moreover a pending tick on a socket that is not OPEN
transmits nothing, so no ping frame is ever sent on a closed connection. -/
theorem claim_C6_heartbeat (s : ChatWebSocket) (sock : Socket) (code : Nat)
    (hws : s.ws = some sock) :
    pingIntervalMs = 30000 ∧
    (s.onOpen).pingActive = true ∧
    (s.onClose code).pingActive = false ∧
    (s.disconnect).pingActive = false ∧
    (sock.readyState ≠ .opened → (s.pingTick).sent = s.sent) := by
  obtain ⟨ws, cid, rp, pa, sentL⟩ := s
  simp only at hws
  subst hws
  refine ⟨rfl, rfl, ?_, rfl, ?_⟩
  · simp only [ChatWebSocket.onClose]
    split <;> rfl
  · intro hnot
    simp only [ChatWebSocket.pingTick, ChatWebSocket.send]
    by_cases hp : pa
    · rw [if_pos hp, if_neg hnot]
    · rw [if_neg hp]

/-- C6 witness: on a concretely connected, opened, then abnormally closed
socket, the heartbeat is stopped and a stray tick transmits nothing. -/
theorem claim_C6_heartbeat_witness :
    pingIntervalMs = 30000 ∧
    (((initialWS.connect 5 true).onOpen).onClose 1006).pingActive = false ∧
    ((((initialWS.connect 5 true).onOpen).onClose 1006).pingTick).sent
        = (((initialWS.connect 5 true).onOpen).onClose 1006).sent := by
  have h := claim_C6_heartbeat (((initialWS.connect 5 true).onOpen).onClose 1006)
    ⟨.closed, 5⟩ 1006 (by decide)
  exact ⟨h.1, by decide, h.2.2.2.2 (by decide)⟩

/-- C8: after an abnormal close (code not 4001/4003/4004) with `chatId` still
set, the `ChatWebSocket` reconnect timer is scheduled with delay 3000 ms
carrying the closure's chat id, but its callback reconnects only when
`this.chatId === null` at firing time; since the abnormal close leaves
`chatId` set, firing it only clears the timer — the socket stays closed and
no new connection is made, so the client never automatically re-establishes
a dropped connection (websocket.ts lines 36–47 and 97–103). -/
theorem claim_C8_reconnect_dead (s : ChatWebSocket) (sock : Socket) (code id : Nat)
    (hasToken : Bool)
    (hws : s.ws = some sock) (hchat : s.chatId = some id)
    (h1 : code ≠ 4001) (h3 : code ≠ 4003) (h4 : code ≠ 4004) :
    (s.onClose code).reconnectPending = some sock.boundChatId ∧
    reconnectDelayMs = 3000 ∧
    ((s.onClose code).reconnectFire hasToken)
        = { s.onClose code with reconnectPending := none } ∧
    ((s.onClose code).reconnectFire hasToken).ws
        = some { sock with readyState := .closed } ∧
    ((s.onClose code).reconnectFire hasToken).chatId = some id := by
  obtain ⟨ws, cid, rp, pa, sentL⟩ := s
  simp only at hws hchat
  subst hws
  subst hchat
  have hclose : ChatWebSocket.onClose ⟨some sock, some id, rp, pa, sentL⟩ code
      = ⟨some { sock with readyState := .closed }, some id, some sock.boundChatId,
          false, sentL⟩ := by
    simp only [ChatWebSocket.onClose]
    rw [if_pos ⟨h1, h3, h4⟩]
  rw [hclose]
  exact ⟨rfl, rfl, rfl, rfl, rfl⟩

/-- C8 witness: connect to chat 7, open, drop with code 1006: the timer is
pending with chat 7, and firing it leaves the socket closed and makes no new
connection. -/
theorem claim_C8_reconnect_dead_witness :
    (((initialWS.connect 7 true).onOpen).onClose 1006).reconnectPending = some 7 ∧
    ((((initialWS.connect 7 true).onOpen).onClose 1006).reconnectFire true).ws
        = some ⟨.closed, 7⟩ ∧
    ((((initialWS.connect 7 true).onOpen).onClose 1006).reconnectFire true).chatId
        = some 7 := by
  have h := claim_C8_reconnect_dead ((initialWS.connect 7 true).onOpen) ⟨.opened, 7⟩
    1006 7 true (by decide) (by decide) (by decide) (by decide) (by decide)
  exact ⟨h.1, h.2.2.2.1, h.2.2.2.2⟩

/-- C10: `ChatWebSocket.send` transmits exactly when a socket exists and its
ready state is OPEN; in every other state the call is a silent no-op that
leaves the whole client state unchanged (it is a total function — nothing is
thrown, queued or retried), and `sendTyping` is just `send` of a typing
frame, so typing and ping messages issued while disconnected are dropped
(websocket.ts lines 62–70). -/
theorem claim_C10_send_guard (s : ChatWebSocket) (m : WireMsg) :
    ((∀ sock, s.ws = some sock → sock.readyState ≠ .opened) → s.send m = s) ∧
    (∀ sock, s.ws = some sock → sock.readyState = .opened →
        s.send m = { s with sent := s.sent ++ [m] }) ∧
    (∀ b, s.sendTyping b = s.send (.typing b)) := by
  obtain ⟨ws, cid, rp, pa, sentL⟩ := s
  refine ⟨?_, ?_, fun b => rfl⟩
  · intro h
    cases ws with
    | none => rfl
    | some sock =>
        simp only [ChatWebSocket.send]
        rw [if_neg (h sock rfl)]
  · intro sock hws hopen
    simp only at hws
    subst hws
    simp only [ChatWebSocket.send]
    rw [if_pos hopen]

/-- C10 witness: on the never-connected client and on a closed socket, both a
ping and a typing frame are dropped without any state change. -/
theorem claim_C10_send_guard_witness :
    initialWS.send .ping = initialWS ∧
    (((initialWS.connect 5 true).onOpen).onClose 1000).sendTyping true
        = ((initialWS.connect 5 true).onOpen).onClose 1000 := by
  constructor
  · exact (claim_C10_send_guard initialWS .ping).1 (by intro sock h; simp [initialWS] at h)
  · have h := claim_C10_send_guard (((initialWS.connect 5 true).onOpen).onClose 1000)
      (.typing true)
    rw [(h.2.2 true)]
    refine h.1 ?_
    intro sock hw
    rw [show (((initialWS.connect 5 true).onOpen).onClose 1000).ws
        = some ⟨.closed, 5⟩ from by decide] at hw
    cases hw
    decide

/-- C7: typing indicators are self-healing. A received `is_typing=true` event
for user `u` puts `u` in the typing list and schedules an unconditional
removal 3000 ms later; when that timer fires, `u` is absent from the typing
list whatever happened in between, so a lost `is_typing=false` event causes
only bounded staleness. On the sender side, `handleInputChange` emits
`is_typing=true` and (re)schedules `sendTyping(false)` 2000 ms from now, so
after 2 s of inactivity the idle timer emits `is_typing=false`
(ChatWindow.tsx lines 68–80 and 127–134). -/
theorem claim_C7_typing_self_healing (st : ChatWindowState) (now : Nat) (u : String)
    (ws : ChatWebSocket) :
    typingExpiryMs = 3000 ∧ typingIdleMs = 2000 ∧
    u ∈ (onTypingEvent now u true st).typingUsers ∧
    (u, now + typingExpiryMs) ∈ (onTypingEvent now u true st).removalTimers ∧
    (∀ t st', u ∉ (fireRemoval (u, t) st').typingUsers) ∧
    (handleInputChange now st ws).1.typingTimeout = some (now + typingIdleMs) ∧
    (handleInputChange now st ws).2 = ws.sendTyping true ∧
    (fireTypingTimeout st ws).1.typingTimeout = none ∧
    (∀ sock, ws.ws = some sock → sock.readyState = .opened →
        (fireTypingTimeout st ws).2.sent = ws.sent ++ [.typing false]) := by
  refine ⟨rfl, rfl, ?_, ?_, ?_, rfl, rfl, rfl, ?_⟩
  · unfold onTypingEvent
    rw [if_pos rfl]
    by_cases hmem : u ∈ st.typingUsers
    · simp [hmem]
    · simp [hmem]
  · unfold onTypingEvent
    rw [if_pos rfl]
    simp
  · intro t st'
    unfold fireRemoval
    simp
  · intro sock hws hopen
    show (ws.sendTyping false).sent = ws.sent ++ [.typing false]
    unfold ChatWebSocket.sendTyping ChatWebSocket.send
    obtain ⟨ws', cid, rp, pa, sentL⟩ := ws
    simp only at hws
    subst hws
    simp only
    rw [if_pos hopen]

/-- C7 witness: receiving `is_typing=true` for "bob" at t = 1000 lists bob
with an expiry at 4000; firing the expiry on a later state removes bob; an
input change at t = 5000 on an open socket schedules the idle emit at 7000
and transmits `is_typing=true`. -/
theorem claim_C7_typing_self_healing_witness :
    "bob" ∈ (onTypingEvent 1000 "bob" true ⟨[], [], none⟩).typingUsers ∧
    ("bob", 4000) ∈ (onTypingEvent 1000 "bob" true ⟨[], [], none⟩).removalTimers ∧
    "bob" ∉ (fireRemoval ("bob", 4000) ⟨["alice", "bob"], [("bob", 4000)], none⟩).typingUsers ∧
    (handleInputChange 5000 ⟨[], [], none⟩ ((initialWS.connect 5 true).onOpen)).1.typingTimeout
        = some 7000 ∧
    (fireTypingTimeout ⟨[], [], none⟩ ((initialWS.connect 5 true).onOpen)).2.sent
        = ((initialWS.connect 5 true).onOpen).sent ++ [.typing false] := by
  have h := claim_C7_typing_self_healing ⟨[], [], none⟩ 1000 "bob"
    ((initialWS.connect 5 true).onOpen)
  have h2 := claim_C7_typing_self_healing ⟨[], [], none⟩ 5000 "bob"
    ((initialWS.connect 5 true).onOpen)
  refine ⟨h.2.2.1, h.2.2.2.1, ?_, h2.2.2.2.2.2.1, ?_⟩
  · exact h.2.2.2.2.1 4000 ⟨["alice", "bob"], [("bob", 4000)], none⟩
  · exact h.2.2.2.2.2.2.2.2 ⟨.opened, 5⟩ (by decide) (by decide)
theorem mapSet_lookup (m : List (String × Position)) (k : String) (v : Position) (n : String) :
    lookupPos (mapSet m k v) n = if n = k then some v else lookupPos m n := by
  induction m with
  | nil =>
      unfold mapSet lookupPos
      by_cases h : n = k
      · subst h
        simp
      · rw [if_neg h, if_neg (fun hk => h hk.symm)]
        rfl
  | cons kv rest ih =>
      unfold mapSet
      by_cases hk : kv.1 = k
      · rw [if_pos hk]
        unfold lookupPos
        by_cases hn : n = k
        · subst hn
          simp
        · rw [if_neg (fun hkn => hn hkn.symm), if_neg hn,
            if_neg (fun hv : kv.1 = n => hn (hk ▸ hv).symm)]
      · rw [if_neg hk]
        unfold lookupPos
        by_cases hn : kv.1 = n
        · have hnk : ¬ n = k := fun h => hk (hn.trans h)
          rw [if_pos hn, if_neg hnk, if_pos hn]
        · rw [if_neg hn, ih, if_neg hn]

theorem mem_keys_mapSet (m : List (String × Position)) (k : String) (v : Position) (n : String) :
    n ∈ (mapSet m k v).map Prod.fst ↔ n ∈ m.map Prod.fst ∨ n = k := by
  induction m with
  | nil => simp [mapSet]
  | cons kv rest ih =>
      unfold mapSet
      by_cases hk : kv.1 = k
      · rw [if_pos hk]
        simp only [List.map_cons, List.mem_cons]
        subst hk
        tauto
      · rw [if_neg hk]
        simp only [List.map_cons, List.mem_cons]
        rw [ih]
        tauto

theorem nodup_keys_mapSet (m : List (String × Position)) (k : String) (v : Position)
    (h : (m.map Prod.fst).Nodup) : ((mapSet m k v).map Prod.fst).Nodup := by
  induction m with
  | nil => simp [mapSet]
  | cons kv rest ih =>
      rw [List.map_cons, List.nodup_cons] at h
      unfold mapSet
      by_cases hk : kv.1 = k
      · rw [if_pos hk]
        rw [List.map_cons, List.nodup_cons]
        exact ⟨hk ▸ h.1, h.2⟩
      · rw [if_neg hk]
        rw [List.map_cons, List.nodup_cons]
        refine ⟨?_, ih h.2⟩
        rw [mem_keys_mapSet]
        rintro (hmem | rfl)
        · exact h.1 hmem
        · exact hk rfl

theorem lookup_stepPending (c : NodeChange) (m : List (String × Position)) (n : String) :
    lookupPos (stepPending m c) n = overlay (dragStopPos c n) (lookupPos m n) := by
  obtain ⟨cid, cip, cdrag, cpos⟩ := c
  cases cpos with
  | none => rfl
  | some p =>
      simp only [stepPending, dragStopPos]
      by_cases hrel : cip = true ∧ cdrag = some false
      · rw [if_pos hrel, mapSet_lookup]
        by_cases hn : cid = n
        · rw [if_pos hn.symm, if_pos ⟨hn, hrel⟩]
          rfl
        · rw [if_neg (fun hc => hn hc.symm), if_neg (fun hc : cid = n ∧ _ => hn hc.1)]
          rfl
      · rw [if_neg hrel, if_neg (fun hc => hrel hc.2)]
        rfl

theorem recordPending_lookup (changes : List NodeChange) :
    ∀ (m : List (String × Position)) (n : String),
      lookupPos (recordPending changes m) n = overlay (lastPos changes n) (lookupPos m n) := by
  induction changes with
  | nil => intro m n; rfl
  | cons c cs ih =>
      intro m n
      show lookupPos (recordPending cs (stepPending m c)) n = _
      rw [ih, lookup_stepPending]
      have hl : lastPos (c :: cs) n
          = match lastPos cs n with
            | some p => some p
            | none => dragStopPos c n := rfl
      rw [hl]
      cases h : lastPos cs n with
      | none => rfl
      | some p => rfl

theorem nodup_keys_recordPending (changes : List NodeChange) :
    ∀ (m : List (String × Position)), (m.map Prod.fst).Nodup →
      ((recordPending changes m).map Prod.fst).Nodup := by
  induction changes with
  | nil => intro m h; exact h
  | cons c cs ih =>
      intro m h
      show ((recordPending cs (stepPending m c)).map Prod.fst).Nodup
      refine ih _ ?_
      obtain ⟨cid, cip, cdrag, cpos⟩ := c
      cases cpos with
      | none => exact h
      | some p =>
          simp only [stepPending]
          by_cases hrel : cip = true ∧ cdrag = some false
          · rw [if_pos hrel]
            exact nodup_keys_mapSet _ _ _ h
          · rw [if_neg hrel]
            exact h

/-- C9: pending move operations are coalesced per node. Drag-stop changes
recorded before a flush upsert a single map entry keyed by node id, so the
batch `flushOperations` sends contains exactly one `move_node` per pending
node — at most one per node id — carrying that node's latest recorded
position; the pending map is left empty before the request is issued, and a
failed request does not resubmit those operations
(WorkflowVisualization.tsx lines 411–426 and 490–494). -/
theorem claim_C9_coalesced_flush (changes : List NodeChange)
    (m0 : List (String × Position)) (c : Nat) (n : String) (requestFails : Bool)
    (hnodup : (m0.map Prod.fst).Nodup)
    (hne : recordPending changes m0 ≠ []) :
    (flushOperations (some c) (recordPending changes m0) requestFails).1
        = (recordPending changes m0).map (fun kv => Operation.moveNode kv.1 kv.2) ∧
    ((flushOperations (some c) (recordPending changes m0) requestFails).1.filterMap
        moveTarget).Nodup ∧
    (flushOperations (some c) (recordPending changes m0) requestFails).2 = [] ∧
    lookupPos (recordPending changes m0) n = overlay (lastPos changes n) (lookupPos m0 n) := by
  have hflush : flushOperations (some c) (recordPending changes m0) requestFails
      = ((recordPending changes m0).map (fun kv => Operation.moveNode kv.1 kv.2), []) := by
    simp only [flushOperations]
    rw [if_neg hne]
  refine ⟨by rw [hflush], ?_, by rw [hflush], recordPending_lookup changes m0 n⟩
  rw [hflush]
  simp only [List.filterMap_map]
  have hcomp : (moveTarget ∘ fun kv : String × Position => Operation.moveNode kv.1 kv.2)
      = some ∘ Prod.fst := rfl
  rw [hcomp, List.filterMap_eq_map]
  exact nodup_keys_recordPending changes m0 hnodup

/-- C9 witness: three drag stops — node "a" twice, node "b" once — coalesce
into two move operations; "a" carries its latest position (5,6); the pending
map is empty after the flush even when the request fails. -/
theorem claim_C9_coalesced_flush_witness :
    (recordPending
        [⟨"a", true, some false, some ⟨1, 2⟩⟩,
         ⟨"b", true, some false, some ⟨3, 4⟩⟩,
         ⟨"a", true, some false, some ⟨5, 6⟩⟩] [] ≠ []) ∧
    (flushOperations (some 9)
        (recordPending
          [⟨"a", true, some false, some ⟨1, 2⟩⟩,
           ⟨"b", true, some false, some ⟨3, 4⟩⟩,
           ⟨"a", true, some false, some ⟨5, 6⟩⟩] []) true).1
        = [Operation.moveNode "a" ⟨5, 6⟩, Operation.moveNode "b" ⟨3, 4⟩] ∧
    (flushOperations (some 9)
        (recordPending
          [⟨"a", true, some false, some ⟨1, 2⟩⟩,
           ⟨"b", true, some false, some ⟨3, 4⟩⟩,
           ⟨"a", true, some false, some ⟨5, 6⟩⟩] []) true).2 = [] ∧
    lookupPos
        (recordPending
          [⟨"a", true, some false, some ⟨1, 2⟩⟩,
           ⟨"b", true, some false, some ⟨3, 4⟩⟩,
           ⟨"a", true, some false, some ⟨5, 6⟩⟩] []) "a" = some ⟨5, 6⟩ := by
  have h := claim_C9_coalesced_flush
    [⟨"a", true, some false, some ⟨1, 2⟩⟩,
     ⟨"b", true, some false, some ⟨3, 4⟩⟩,
     ⟨"a", true, some false, some ⟨5, 6⟩⟩] [] 9 "a" true (by decide) (by decide)
  refine ⟨by decide, ?_, h.2.2.1, by decide⟩
  rw [h.1]
  decide
